import Mathlib

/-!
Verification of the incremental bar-ingestion core of the
edge-orb-performance-site repository: range planning, paginated fetching,
frame normalization, and the merge-dedup writer, as implemented in
`scripts/polygon_downloader.py` and `scripts/databento_downloader.py`.

Modelling conventions.

* Timestamps.  A `caldt` CSV cell is modelled by the value
  `pd.to_datetime(..., errors="coerce")` assigns to it, in milliseconds
  since the epoch (`none` stands for `NaT`, i.e. an empty or unparseable
  cell).  The behaviour of `append_to_csv` depends on the stored string
  only through this parse value, and the final
  `strftime("%Y-%m-%d %H:%M:%S")` writes a canonical string that is
  determined by, and determines, the value truncated to whole seconds;
  it is therefore modelled as truncation of the millisecond value to a
  whole second.  `NaT` values are formatted by `.dt.strftime` as missing
  and written as an empty cell, which parses back to `NaT`, so `none`
  is formatted to `none`.
* Dates (used by the range planners) are day numbers: days since
  1970-01-01 in the exchange's local calendar.  Python `date`
  subtraction never clamps while `Nat` subtraction does, but the only
  clamped values correspond to dates before 1970, where both sides of
  every comparison we model agree.
* `sort_values("caldt")` is modelled as a stable sort with `NaT` placed
  last (`na_position="last"`); together with
  `drop_duplicates(subset=["caldt"], keep="last")` this gives the
  repository's observed new-row-wins semantics on duplicate timestamps.
-/

namespace EdgeOrb

/-- One row of a per-symbol CSV store as `append_to_csv` sees it: the
`caldt` cell (by its `pd.to_datetime` parse value in ms; `none` = NaT)
and the remaining columns (`open` … `day`), which the merge logic never
inspects and which are kept opaque. -/
structure Bar where
  caldt : Option Nat
  data : String
deriving DecidableEq

/-- Comparison used by `sort_values("caldt")`: the order on parsed
timestamps, with `NaT` placed last (`na_position="last"`). -/
def caldtLe : Option Nat → Option Nat → Bool
  | some a, some b => decide (a ≤ b)
  | some _, none => true
  | none, some _ => false
  | none, none => true

theorem caldtLe_refl (x : Option Nat) : caldtLe x x = true := by
  cases x <;> simp [caldtLe]

theorem caldtLe_total (x y : Option Nat) : caldtLe x y = true ∨ caldtLe y x = true := by
  cases x <;> cases y <;> simp [caldtLe] <;> omega

theorem caldtLe_trans {x y z : Option Nat} (h₁ : caldtLe x y = true) (h₂ : caldtLe y z = true) :
    caldtLe x z = true := by
  cases x <;> cases y <;> cases z <;> simp_all [caldtLe] <;> omega

theorem caldtLe_antisymm {x y : Option Nat} (h₁ : caldtLe x y = true) (h₂ : caldtLe y x = true) :
    x = y := by
  cases x <;> cases y <;> simp_all [caldtLe] <;> omega

/-- Ordered insertion realising the stable sort on the `caldt` column. -/
def insertBar (a : Bar) : List Bar → List Bar
  | [] => [a]
  | b :: l => if caldtLe a.caldt b.caldt then a :: b :: l else b :: insertBar a l

/-- Stable sort by the parsed `caldt` value (`sort_values("caldt")`). -/
def sortBars : List Bar → List Bar
  | [] => []
  | a :: l => insertBar a (sortBars l)

/-- `drop_duplicates(subset=["caldt"], keep="last")`: a row survives iff
no later row carries the same `caldt` key; surviving rows keep their
relative order.  pandas treats `NaT` keys as equal to each other here. -/
def dropDupKeepLast : List Bar → List Bar
  | [] => []
  | b :: l => if b.caldt ∈ l.map Bar.caldt then dropDupKeepLast l else b :: dropDupKeepLast l

/-- Effect on one row of the final
`combined["caldt"].dt.strftime("%Y-%m-%d %H:%M:%S")` before writing: the
written cell re-parses to the timestamp truncated to a whole second
(`NaT` is written as an empty cell, which re-parses to `NaT`). -/
def truncSec (b : Bar) : Bar := ⟨b.caldt.map (fun t => t / 1000 * 1000), b.data⟩

/-- `pd.concat` result put through `sort_values("caldt")` and
`drop_duplicates(subset=["caldt"], keep="last")`
(`polygon_downloader.append_to_csv` lines 237–239,
`databento_downloader.append_to_csv` lines 122–124). -/
def mergeCore (l : List Bar) : List Bar := dropDupKeepLast (sortBars l)

/-- Rows written by `append_to_csv` when the existing store parses to
`existing` and the freshly downloaded frame is `newRows`: concatenate
(existing first), sort by `caldt`, deduplicate keeping the last, format
timestamps to whole seconds. -/
def mergeBars (existing newRows : List Bar) : List Bar :=
  (mergeCore (existing ++ newRows)).map truncSec

/-- All rows of `l` whose `caldt` key is `k`, in order. -/
def filterKey (k : Option Nat) : List Bar → List Bar
  | [] => []
  | b :: l => if b.caldt = k then b :: filterKey k l else filterKey k l

/-- The last row of `l` whose `caldt` key is `k`, if any. -/
def lastKey (k : Option Nat) : List Bar → Option Bar
  | [] => none
  | b :: l =>
    match lastKey k l with
    | some x => some x
    | none => if b.caldt = k then some b else none

/-- The (non-strict) row order used by the sort. -/
def BarLe (a b : Bar) : Prop := caldtLe a.caldt b.caldt = true

/-- The strict row order that holds between any two rows the merge
writes: sorted and with distinct `caldt` keys. -/
def BarLt (a b : Bar) : Prop := BarLe a b ∧ a.caldt ≠ b.caldt

/-! ### Range planning (`get_last_data_date` and the per-file planning in
both scripts' `main` functions)

A date cell (`day`, or the date part of `caldt` split at the first
space) is modelled by the outcome of
`datetime.strptime(value, "%Y-%m-%d")`: absent/empty (falsy), a
non-empty string that fails to parse, or a day number. -/

/-- Outcome of reading one date field of a CSV row. -/
inductive DateCell
  | absent
  | malformed (s : String)
  | valid (d : Nat)
deriving DecidableEq

/-- The fields of the last CSV row that `get_last_data_date` inspects:
the `day` cell and the date part of the `caldt` cell. -/
structure CsvRow where
  day : DateCell
  caldtDate : DateCell
deriving DecidableEq

/-- `get_last_data_date` (identical in `polygon_downloader.py` lines
83–108 and `databento_downloader.py` lines 60–90, existence check
aside): read the last row; prefer a non-empty `day` cell, fall back to
the date part of `caldt`; raise `RuntimeError` when the chosen cell does
not parse or when neither cell is present. -/
def get_last_data_date (path : String) (rows : List CsvRow) : Except String (Option Nat) :=
  match rows.getLast? with
  | none => .ok none
  | some r =>
    match r.day with
    | .valid d => .ok (some d)
    | .malformed s => .error ("Unexpected day format in " ++ path ++ ": " ++ s)
    | .absent =>
      match r.caldtDate with
      | .valid d => .ok (some d)
      | .malformed s => .error ("Unexpected caldt format in " ++ path ++ ": " ++ s)
      | .absent => .error ("Could not find day or caldt columns in " ++ path)

/-- Per-file range planning of `polygon_downloader.main` (lines
329–347): skip when `last_date >= yesterday`; start at `last_date + 1`,
or at `today - 730` for an empty file; end at `today`; skip when
`start_date > end_date`.  `today` is the current date in the exchange
timezone, as a day number.  A raised `RuntimeError` propagates. -/
def polygonPlanStep (path : String) (rows : List CsvRow) (today : Nat) :
    Except String (Option (Nat × Nat)) :=
  match get_last_data_date path rows with
  | .error e => .error e
  | .ok lastDate =>
    match lastDate with
    | some d =>
      if today - 1 ≤ d then .ok none
      else if today < d + 1 then .ok none else .ok (some (d + 1, today))
    | none =>
      if today < today - 730 then .ok none else .ok (some (today - 730, today))

/-- The per-file loop of `polygon_downloader.main` (planning part):
files are processed in order and each file's planned range is recorded.
There is no `try/except` around the loop body, so an exception raised by
`get_last_data_date` propagates and ends the whole batch. -/
def polygon_main (today : Nat) :
    List (String × List CsvRow) → Except String (List (String × Option (Nat × Nat)))
  | [] => .ok []
  | (path, rows) :: rest =>
    match polygonPlanStep path rows today with
    | .error e => .error e
    | .ok plan =>
      match polygon_main today rest with
      | .error e => .error e
      | .ok tail => .ok ((path, plan) :: tail)

/-- `DEFAULT_START_DATE = date(2024, 1, 1)` of `databento_downloader.py`
as a day number (days since 1970-01-01). -/
def DEFAULT_START_DATE : Nat := 19723

/-- Per-file range planning of `databento_downloader.main` (lines
262–291): a file that does not exist is skipped outright (no range);
otherwise skip when `last_date >= yesterday`; start at
`max(last_date + 1, base_start)`, or at
`max(base_start, DEFAULT_START_DATE)` for an empty file; end at
`today`; skip when `start_date > end_date`.  `store = none` models a
missing file, `baseStart` the per-target `start_date` configuration
(defaulting to `DEFAULT_START_DATE` when absent). -/
def databentoPlanStep (path : String) (store : Option (List CsvRow)) (baseStart today : Nat) :
    Except String (Option (Nat × Nat)) :=
  match store with
  | none => .ok none
  | some rows =>
    match get_last_data_date path rows with
    | .error e => .error e
    | .ok lastDate =>
      match lastDate with
      | some d =>
        if today - 1 ≤ d then .ok none
        else
          if today < max (d + 1) baseStart then .ok none
          else .ok (some (max (d + 1) baseStart, today))
      | none =>
        if today < max baseStart DEFAULT_START_DATE then .ok none
        else .ok (some (max baseStart DEFAULT_START_DATE, today))

/-! ### Databento paginated fetch
(`databento_downloader.download_and_process_range`, lines 180–250)

Instants are milliseconds since the epoch, UTC.  The remote source is
modelled by the response it gives to a `timeseries.get_range` request as
a function of the request's `end` argument (`start` is fixed for the
whole loop and never changes). -/

/-- One day in milliseconds. -/
def DAY_MS : Nat := 86400000

/-- Outcome of one `client.timeseries.get_range` call:
success, a `data_end_after_available_end` error reporting the
availability boundary (an instant), or any other exception. -/
inductive DbResponse
  | success
  | availability (boundary : Nat)
  | failure (msg : String)
deriving DecidableEq

/-- Result of the request loop of `download_and_process_range`. -/
inductive LoopResult
  | got (endUsed : Nat)
  | skippedBeforeStart (boundary : Nat)
  | aborted (msg : String)
  | outOfFuel
deriving DecidableEq

/-- The `while True` request loop of `download_and_process_range`:
issue a request with the current `end`; on success break; on a
`data_end_after_available_end` error, return an empty frame when the
boundary's date precedes `start_date`, give up when already adjusted
and the boundary is not before the current `end`, and otherwise narrow
`end` to the boundary and retry; on any other error return an empty
frame.  Returns the list of issued request `end`s and the outcome;
`fuel` bounds the number of requests (the Python loop itself terminates
only while the reported boundary keeps strictly decreasing). -/
def get_range_loop (remote : Nat → DbResponse) (startDate : Nat) :
    Nat → Bool → Nat → List Nat × LoopResult
  | _, _, 0 => ([], .outOfFuel)
  | endDt, adjusted, fuel + 1 =>
    match remote endDt with
    | .success => ([endDt], .got endDt)
    | .failure msg => ([endDt], .aborted msg)
    | .availability b =>
      if b / DAY_MS < startDate then ([endDt], .skippedBeforeStart b)
      else if adjusted = true ∧ endDt ≤ b then ([endDt], .aborted "data_end_after_available_end")
      else
        let rest := get_range_loop remote startDate b true fuel
        (endDt :: rest.1, rest.2)

/-- The request phase of `download_and_process_range`: the first request
uses `end = ` midnight UTC of `end_date + 1` (exclusive upper bound) and
`adjusted = False`. -/
def download_and_process_range_requests (remote : Nat → DbResponse)
    (startDate endDate fuel : Nat) : List Nat × LoopResult :=
  get_range_loop remote startDate ((endDate + 1) * DAY_MS) false fuel

/-! ### Frame normalizers

The UTC→America/New_York conversion is modelled with the fixed
standard-time offset (UTC−5): the time-zone database is outside the
embedding, and no claim below depends on the daylight-saving branch.
Instants before 1970-01-01 05:00 UTC are not represented. -/

/-- Fixed model offset of the exchange timezone (Eastern standard
time). -/
def ET_OFFSET_MS : Nat := 18000000

/-- The `t` field of one raw Polygon aggregate record, by its
`pd.to_datetime(..., unit="ms", errors="coerce")` outcome: the key is
absent from the record (a record-level `NaN`), present but unparseable
(coerced to `NaT`), or a millisecond epoch instant. -/
inductive TsField
  | missing
  | bad
  | val (ms : Nat)
deriving DecidableEq

/-- One raw Polygon aggregate record: the `t` timestamp field and the
remaining fields (`o`,`h`,`l`,`c`,`v`,`vw`,`n`), kept opaque. -/
structure RawBar where
  t : TsField
  data : String
deriving DecidableEq

/-- `between_time("04:00", "19:59", inclusive="both")` on the Eastern
time-of-day of a bar: `04:00:00 ≤ time ≤ 19:59:00`. -/
def sessionFilter (caldtMs : Nat) : Bool :=
  decide (14400000 ≤ caldtMs % DAY_MS ∧ caldtMs % DAY_MS ≤ 71940000)

/-- `polygon_downloader.process_data` (lines 186–219): empty input gives
an empty frame; `df["t"]` raises `KeyError` when no record carries the
`t` key at all (the column is then absent); otherwise each record's `t`
is coerced (`errors="coerce"`, unparseable → `NaT`), converted to
Eastern time, sorted by that index (`NaT` last), and filtered to the
04:00–19:59 session window, which drops `NaT` rows.  No record ever
fails the frame; renames and the derived `day` column live in the
opaque payload. -/
def process_data (results : List RawBar) : Except String (List Bar) :=
  if results = [] then .ok []
  else if results.all (fun r => match r.t with | .missing => true | _ => false) then
    .error "KeyError: t"
  else
    let rows : List Bar := results.map fun r =>
      match r.t with
      | .val ms => ⟨some (ms - ET_OFFSET_MS), r.data⟩
      | _ => ⟨none, r.data⟩
    .ok ((sortBars rows).filter fun b =>
      match b.caldt with
      | some ms => sessionFilter ms
      | none => false)

/-- One row of a Databento OHLCV frame: the selected timestamp column's
`pd.to_datetime(..., utc=True, errors="coerce")` outcome (`none` =
`NaT`) and the remaining columns, kept opaque. -/
structure DbRawRow where
  ts : Option Nat
  data : String
deriving DecidableEq

/-- `databento_downloader.process_databento_frame` (lines 131–177):
an empty frame maps to an empty frame; a frame without any of the known
timestamp columns raises; a frame in which any timestamp coerces to
`NaT` raises; otherwise every row is converted to an Eastern civil
timestamp.  `hasTsCol` records whether one of `ts_event`/`ts`/
`ts_start`/`ts_end` is a column of the frame. -/
def process_databento_frame (hasTsCol : Bool) (rows : List DbRawRow) :
    Except String (List Bar) :=
  if rows = [] then .ok []
  else if hasTsCol = false then
    .error "Could not find a timestamp column in the Databento response"
  else if rows.any (fun r => r.ts.isNone) then
    .error "Encountered unparseable timestamps in Databento response"
  else .ok (rows.map fun r => ⟨r.ts.map (· - ET_OFFSET_MS), r.data⟩)

/-! ### Polygon paginated fetch and orchestration
(`get_polygon_data`, `download_and_merge_data`)

The remote source is modelled as the response to the `i`-th HTTP request
of the run (requests are numbered across retries and pages; sleeps are
timing behaviour outside the embedding). -/

/-- Outcome of one Polygon HTTP request. -/
inductive PolyResponse
  | ok (results : List RawBar) (nextUrl : Option String)
  | rateLimited
  | transportError (msg : String)
  | httpError
  | badJson
deriving DecidableEq

/-- `get_polygon_data` (lines 111–183): up to `MAX_RETRIES = 5`
attempts; a 429 response sleeps and retries; a transport error, a bad
HTTP status or invalid JSON returns `([], None)` at once; a successful
response returns its records and continuation URL.  Exhausting the
retry budget returns `([], None)`.  Returns the result paired with the
next request number. -/
def get_polygon_data (remote : Nat → PolyResponse) :
    Nat → Nat → (List RawBar × Option String) × Nat
  | reqIdx, 0 => (([], none), reqIdx)
  | reqIdx, attemptsLeft + 1 =>
    match remote reqIdx with
    | .rateLimited => get_polygon_data remote (reqIdx + 1) attemptsLeft
    | .ok results nextUrl => ((results, nextUrl), reqIdx + 1)
    | _ => (([], none), reqIdx + 1)

/-- The batch loop of `download_and_merge_data` (lines 278–302):
repeatedly call `get_polygon_data`, stop on an empty result batch, on a
missing `next_url`, or at the `MAX_BATCHES = 500` safety cap,
accumulating all raw records. -/
def collectBatches (remote : Nat → PolyResponse) :
    Nat → Nat → List RawBar → List RawBar × Nat
  | reqIdx, 0, acc => (acc, reqIdx)
  | reqIdx, batchesLeft + 1, acc =>
    let step := get_polygon_data remote reqIdx 5
    match step.1 with
    | ([], _) => (acc, step.2)
    | (results, none) => (acc ++ results, step.2)
    | (results, some _) => collectBatches remote step.2 batchesLeft (acc ++ results)

/-- File-system operations performed on the store, in order. -/
inductive FsOp
  | readCsv (path : String)
  | writeCsv (path : String)
  | rename (src dst : String)
  | mkdirParents (dir : String)
deriving DecidableEq

/-- The write pattern the spec ascribes to the merge step: the combined
result is written to a distinct temporary location which is then moved
over the target, and the target itself is never written directly. -/
def isAtomicReplace (ops : List FsOp) (target : String) : Prop :=
  ∃ tmp, tmp ≠ target ∧ FsOp.writeCsv tmp ∈ ops ∧ FsOp.rename tmp target ∈ ops ∧
    FsOp.writeCsv target ∉ ops

/-- `polygon_downloader.append_to_csv` (lines 222–243): read the
existing CSV when the file exists (a missing file means the combined
frame is just the new rows), merge, and write the result with a single
`combined.to_csv(output_file)` directly to the target path.  Returns
the written rows and the file operations performed. -/
def append_to_csv (finalDf : List Bar) (path : String) (store : Option (List Bar)) :
    List Bar × List FsOp :=
  match store with
  | some existing => (mergeBars existing finalDf, [.readCsv path, .writeCsv path])
  | none => (mergeBars [] finalDf, [.writeCsv path])

/-- `databento_downloader.append_to_csv` (lines 93–128): identical merge
logic; when the file does not exist the parent directory is created
first; the write is again a single direct `to_csv` to the target. -/
def append_to_csv_databento (finalDf : List Bar) (path parentDir : String)
    (store : Option (List Bar)) : List Bar × List FsOp :=
  match store with
  | some existing => (mergeBars existing finalDf, [.readCsv path, .writeCsv path])
  | none => (mergeBars [] finalDf, [.mkdirParents parentDir, .writeCsv path])

/-- `polygon_downloader.download_and_merge_data` (lines 246–317):
refuse a start date older than 730 days before `today` (free tier);
collect all batches; return `None` with the store untouched when no raw
records were collected or the processed frame is empty; otherwise merge
via `append_to_csv`.  The result carries the final parsed store content
(`none` = file still absent) and the store file operations performed;
an `Except.error` is a propagated Python exception (the store is not
written in that case either). -/
def download_and_merge_data (remote : Nat → PolyResponse)
    (startDate today : Nat) (path : String) (store : Option (List Bar)) :
    Except String (Option (List Bar) × List FsOp) :=
  if startDate < today - 730 then .ok (store, [])
  else
    let raw := (collectBatches remote 0 500 []).1
    if raw = [] then .ok (store, [])
    else
      match process_data raw with
      | .error e => .error e
      | .ok finalDf =>
        if finalDf = [] then .ok (store, [])
        else
          let w := append_to_csv finalDf path store
          .ok (some w.1, w.2)

/-- The whole of `databento_downloader.download_and_process_range`
(lines 180–250): run the request loop; an availability boundary before
the start date or any other failure returns an empty frame; on success
the raw frame (`store.to_df()`, given by `rawFrame` as a function of
the request end actually used: its timestamp-column flag and rows) is
normalized by `process_databento_frame` — a raised error propagates —
and, when non-empty, filtered to rows whose `caldt` date lies between
`start_date` and `end_date` inclusive.  `.outOfFuel` is the model's
image of the non-terminating adversarial case (the Python loop only
terminates while the reported boundary strictly decreases) and is
mapped to a model-level error. -/
def download_and_process_range (remote : Nat → DbResponse)
    (rawFrame : Nat → Bool × List DbRawRow) (startDate endDate fuel : Nat) :
    Except String (List Bar) :=
  match (download_and_process_range_requests remote startDate endDate fuel).2 with
  | .got endUsed =>
    match process_databento_frame (rawFrame endUsed).1 (rawFrame endUsed).2 with
    | .error e => .error e
    | .ok processed =>
      if processed = [] then .ok []
      else .ok (processed.filter fun b =>
        match b.caldt with
        | some ms => decide (startDate ≤ ms / DAY_MS ∧ ms / DAY_MS ≤ endDate)
        | none => false)
  | .skippedBeforeStart _ => .ok []
  | .aborted _ => .ok []
  | .outOfFuel => .error "model: request fuel exhausted"

/-- The fetch-and-write tail of `databento_downloader.main`'s per-file
loop (lines 296–310): fetch and normalize the planned range; when the
returned frame is empty, `continue` without touching the store (no file
operation); otherwise merge it into the store via `append_to_csv`.  An
exception from normalization propagates (the store is untouched then
too). -/
def databento_fetch_and_write (remote : Nat → DbResponse)
    (rawFrame : Nat → Bool × List DbRawRow) (startDate endDate fuel : Nat)
    (path parentDir : String) (store : Option (List Bar)) :
    Except String (Option (List Bar) × List FsOp) :=
  match download_and_process_range remote rawFrame startDate endDate fuel with
  | .error e => .error e
  | .ok newRows =>
    if newRows = [] then .ok (store, [])
    else
      let w := append_to_csv_databento newRows path parentDir store
      .ok (some w.1, w.2)

theorem mem_insertBar {x a : Bar} {l : List Bar} : x ∈ insertBar a l ↔ x = a ∨ x ∈ l := by
  induction l with
  | nil => simp [insertBar]
  | cons b t ih =>
    by_cases h : caldtLe a.caldt b.caldt = true
    · simp [insertBar, if_pos h]
    · simp only [insertBar, if_neg h, List.mem_cons, ih]
      tauto

theorem mem_sortBars {x : Bar} {l : List Bar} : x ∈ sortBars l ↔ x ∈ l := by
  induction l with
  | nil => simp [sortBars]
  | cons a t ih => simp [sortBars, mem_insertBar, ih]

theorem pairwise_insertBar {a : Bar} {l : List Bar} (h : l.Pairwise BarLe) :
    (insertBar a l).Pairwise BarLe := by
  induction l with
  | nil => simp [insertBar, BarLe]
  | cons b t ih =>
    rcases List.pairwise_cons.mp h with ⟨hb, ht⟩
    by_cases hle : caldtLe a.caldt b.caldt = true
    · simp only [insertBar, if_pos hle]
      refine List.Pairwise.cons ?_ (List.Pairwise.cons hb ht)
      intro x hx
      rcases List.mem_cons.mp hx with heq | hx
      · subst heq; exact hle
      · exact caldtLe_trans hle (hb x hx)
    · simp only [insertBar, if_neg hle]
      refine List.Pairwise.cons ?_ (ih ht)
      intro x hx
      rcases mem_insertBar.mp hx with heq | hx
      · subst heq
        rcases caldtLe_total x.caldt b.caldt with h' | h'
        · exact absurd h' hle
        · exact h'
      · exact hb x hx

theorem sortBars_pairwise (l : List Bar) : (sortBars l).Pairwise BarLe := by
  induction l with
  | nil => simp [sortBars]
  | cons a t ih =>
    simp only [sortBars]
    exact pairwise_insertBar ih

theorem filterKey_insertBar (k : Option Nat) (a : Bar) (l : List Bar) :
    filterKey k (insertBar a l) =
      if a.caldt = k then a :: filterKey k l else filterKey k l := by
  induction l with
  | nil => simp [insertBar, filterKey]
  | cons b t ih =>
    by_cases hle : caldtLe a.caldt b.caldt = true
    · simp only [insertBar, if_pos hle, filterKey]
    · simp only [insertBar, if_neg hle, filterKey, ih]
      by_cases ha : a.caldt = k
      · by_cases hb : b.caldt = k
        · have : caldtLe a.caldt b.caldt = true := by
            rw [ha, hb]; exact caldtLe_refl k
          exact absurd this hle
        · simp [ha, hb]
      · simp [ha]

theorem filterKey_sortBars (k : Option Nat) (l : List Bar) :
    filterKey k (sortBars l) = filterKey k l := by
  induction l with
  | nil => rfl
  | cons a t ih => simp only [sortBars, filterKey_insertBar, filterKey, ih]

theorem dropDup_sublist (l : List Bar) : List.Sublist (dropDupKeepLast l) l := by
  induction l with
  | nil => simp [dropDupKeepLast]
  | cons b t ih =>
    by_cases h : b.caldt ∈ t.map Bar.caldt
    · simp only [dropDupKeepLast, if_pos h]
      exact List.Sublist.cons b ih
    · simp only [dropDupKeepLast, if_neg h]
      exact List.Sublist.cons₂ b ih

theorem mem_dropDup {x : Bar} {l : List Bar} (h : x ∈ dropDupKeepLast l) : x ∈ l :=
  (dropDup_sublist l).subset h

theorem dropDup_keys_pairwise (l : List Bar) :
    (dropDupKeepLast l).Pairwise fun a b => a.caldt ≠ b.caldt := by
  induction l with
  | nil => simp [dropDupKeepLast]
  | cons b t ih =>
    by_cases h : b.caldt ∈ t.map Bar.caldt
    · simp only [dropDupKeepLast, if_pos h]
      exact ih
    · simp only [dropDupKeepLast, if_neg h]
      refine List.Pairwise.cons ?_ ih
      intro x hx heq
      exact h (heq ▸ List.mem_map_of_mem Bar.caldt (mem_dropDup hx))

theorem mergeCore_strict (l : List Bar) : (mergeCore l).Pairwise BarLt :=
  List.Pairwise.and
    ((sortBars_pairwise l).sublist (dropDup_sublist (sortBars l)))
    (dropDup_keys_pairwise (sortBars l))

theorem mem_mergeCore {x : Bar} {l : List Bar} (h : x ∈ mergeCore l) : x ∈ l :=
  mem_sortBars.mp (mem_dropDup h)

theorem mem_filterKey {k : Option Nat} {l : List Bar} {x : Bar} :
    x ∈ filterKey k l ↔ x ∈ l ∧ x.caldt = k := by
  induction l with
  | nil => simp [filterKey]
  | cons b t ih =>
    by_cases hb : b.caldt = k
    · simp only [filterKey, if_pos hb, List.mem_cons, ih]
      constructor
      · rintro (heq | ⟨hx, hk⟩)
        · exact ⟨Or.inl heq, heq ▸ hb⟩
        · exact ⟨Or.inr hx, hk⟩
      · rintro ⟨heq | hx, hk⟩
        · exact Or.inl heq
        · exact Or.inr ⟨hx, hk⟩
    · simp only [filterKey, if_neg hb, List.mem_cons, ih]
      constructor
      · rintro ⟨hx, hk⟩
        exact ⟨Or.inr hx, hk⟩
      · rintro ⟨heq | hx, hk⟩
        · exact absurd (heq ▸ hk) hb
        · exact ⟨hx, hk⟩

theorem lastKey_key {k : Option Nat} {l : List Bar} {x : Bar} (h : lastKey k l = some x) :
    x.caldt = k := by
  induction l with
  | nil => simp [lastKey] at h
  | cons b t ih =>
    simp only [lastKey] at h
    cases hl : lastKey k t with
    | some y =>
      rw [hl] at h
      cases h
      exact ih hl
    | none =>
      rw [hl] at h
      by_cases hb : b.caldt = k
      · rw [if_pos hb] at h
        cases h
        exact hb
      · rw [if_neg hb] at h
        exact Option.noConfusion h

theorem lastKey_eq_none {k : Option Nat} {l : List Bar} :
    lastKey k l = none ↔ k ∉ l.map Bar.caldt := by
  induction l with
  | nil => simp [lastKey]
  | cons b t ih =>
    simp only [lastKey, List.map_cons, List.mem_cons]
    cases hl : lastKey k t with
    | some y =>
      have hk : k ∈ t.map Bar.caldt := by
        by_contra hc
        rw [ih.mpr hc] at hl
        exact Option.noConfusion hl
      simp [hk]
    | none =>
      have hk : k ∉ t.map Bar.caldt := ih.mp hl
      by_cases hb : b.caldt = k
      · simp [if_pos hb, hb]
      · rw [if_neg hb]
        constructor
        · intro _ hcon
          rcases hcon with heq | hmem
          · exact hb heq.symm
          · exact hk hmem
        · intro _
          rfl

theorem lastKey_append (k : Option Nat) (l₁ l₂ : List Bar) :
    lastKey k (l₁ ++ l₂) =
      match lastKey k l₂ with
      | some x => some x
      | none => lastKey k l₁ := by
  induction l₁ with
  | nil =>
    simp only [List.nil_append]
    cases lastKey k l₂ <;> simp [lastKey]
  | cons b t ih =>
    simp only [List.cons_append, lastKey, List.append_eq, ih]
    cases lastKey k l₂ <;> cases lastKey k t <;> rfl

theorem lastKey_filterKey (k : Option Nat) (l : List Bar) :
    lastKey k (filterKey k l) = lastKey k l := by
  induction l with
  | nil => rfl
  | cons b t ih =>
    by_cases hb : b.caldt = k
    · simp only [filterKey, if_pos hb, lastKey, ih]
    · simp only [filterKey, if_neg hb, lastKey, ih]
      cases lastKey k t with
      | some y => rfl
      | none => simp [if_neg hb]

theorem filterKey_dropDup (k : Option Nat) (l : List Bar) :
    filterKey k (dropDupKeepLast l) = (lastKey k l).toList := by
  induction l with
  | nil => rfl
  | cons b t ih =>
    by_cases hmem : b.caldt ∈ t.map Bar.caldt
    · simp only [dropDupKeepLast, if_pos hmem, ih, lastKey]
      cases hl : lastKey k t with
      | some y => rfl
      | none =>
        by_cases hb : b.caldt = k
        · exact absurd (hb ▸ hmem) (lastKey_eq_none.mp hl)
        · simp [if_neg hb]
    · simp only [dropDupKeepLast, if_neg hmem, filterKey, lastKey]
      by_cases hb : b.caldt = k
      · have hnone : lastKey k t = none := lastKey_eq_none.mpr (by rw [← hb]; exact hmem)
        simp [if_pos hb, ih, hnone]
      · simp only [if_neg hb, ih]
        cases lastKey k t with
        | some y => rfl
        | none => simp [if_neg hb]

theorem lastKey_sortBars (k : Option Nat) (l : List Bar) :
    lastKey k (sortBars l) = lastKey k l := by
  rw [← lastKey_filterKey k (sortBars l), filterKey_sortBars, lastKey_filterKey]

theorem filterKey_mergeCore (k : Option Nat) (l : List Bar) :
    filterKey k (mergeCore l) = (lastKey k l).toList := by
  rw [mergeCore, filterKey_dropDup, lastKey_sortBars]

theorem lastKey_mergeCore (k : Option Nat) (l : List Bar) :
    lastKey k (mergeCore l) = lastKey k l := by
  rw [← lastKey_filterKey, filterKey_mergeCore]
  cases hl : lastKey k l with
  | none => rfl
  | some x => simp [Option.toList, lastKey, lastKey_key hl]

theorem filterKey_eq_nil_of_pairwise {x : Bar} {t : List Bar}
    (h : (x :: t).Pairwise BarLt) : filterKey x.caldt t = [] := by
  rcases List.pairwise_cons.mp h with ⟨hx, -⟩
  cases hfe : filterKey x.caldt t with
  | nil => rfl
  | cons y ys =>
    have hy : y ∈ filterKey x.caldt t := by rw [hfe]; exact List.mem_cons_self y ys
    rcases mem_filterKey.mp hy with ⟨hyt, hyk⟩
    exact absurd hyk.symm (hx y hyt).2

theorem eq_of_filterKey_eq {l₁ l₂ : List Bar} (h₁ : l₁.Pairwise BarLt) (h₂ : l₂.Pairwise BarLt)
    (h : ∀ k, filterKey k l₁ = filterKey k l₂) : l₁ = l₂ := by
  induction l₁ generalizing l₂ with
  | nil =>
    cases l₂ with
    | nil => rfl
    | cons b t₂ =>
      have hb := h b.caldt
      simp [filterKey] at hb
  | cons a t₁ ih =>
    cases l₂ with
    | nil =>
      have ha := h a.caldt
      simp [filterKey] at ha
    | cons b t₂ =>
      have hfa₁ : filterKey a.caldt (a :: t₁) = [a] := by
        simp [filterKey, filterKey_eq_nil_of_pairwise h₁]
      have hfb₂ : filterKey b.caldt (b :: t₂) = [b] := by
        simp [filterKey, filterKey_eq_nil_of_pairwise h₂]
      have hab : a = b := by
        by_contra hne
        have ha₂ : a ∈ (b :: t₂ : List Bar) := by
          have := (h a.caldt).symm.trans hfa₁
          have hmem : a ∈ filterKey a.caldt (b :: t₂) := by
            rw [this]; exact List.mem_cons_self a []
          exact (mem_filterKey.mp hmem).1
        have hb₁ : b ∈ (a :: t₁ : List Bar) := by
          have := (h b.caldt).trans hfb₂
          have hmem : b ∈ filterKey b.caldt (a :: t₁) := by
            rw [this]; exact List.mem_cons_self b []
          exact (mem_filterKey.mp hmem).1
        have hat₂ : a ∈ t₂ := by
          rcases List.mem_cons.mp ha₂ with heq | hmem
          · exact absurd heq hne
          · exact hmem
        have hbt₁ : b ∈ t₁ := by
          rcases List.mem_cons.mp hb₁ with heq | hmem
          · exact absurd heq.symm hne
          · exact hmem
        have hba : BarLt b a := (List.pairwise_cons.mp h₂).1 a hat₂
        have hab' : BarLt a b := (List.pairwise_cons.mp h₁).1 b hbt₁
        exact hab'.2 (caldtLe_antisymm hab'.1 hba.1)
      subst hab
      have htails : ∀ k, filterKey k t₁ = filterKey k t₂ := by
        intro k
        by_cases hk : a.caldt = k
        · subst hk
          rw [filterKey_eq_nil_of_pairwise h₁, filterKey_eq_nil_of_pairwise h₂]
        · have hk' := h k
          simp only [filterKey, if_neg hk] at hk'
          exact hk'
      exact congrArg (a :: ·)
        (ih (List.pairwise_cons.mp h₁).2 (List.pairwise_cons.mp h₂).2 htails)

theorem map_id_of {l : List Bar} {f : Bar → Bar} (h : ∀ b ∈ l, f b = b) : l.map f = l := by
  induction l with
  | nil => rfl
  | cons a t ih =>
    simp only [List.map_cons, h a (List.mem_cons_self a t),
      ih fun b hb => h b (List.mem_cons_of_mem a hb)]

theorem mergeBars_eq_mergeCore {E N : List Bar} (h : ∀ b ∈ E ++ N, truncSec b = b) :
    mergeBars E N = mergeCore (E ++ N) := by
  rw [mergeBars]
  exact map_id_of fun b hb => h b (mem_mergeCore hb)


/-! ## Claims -/

/-- C1 (amended): for every existing store and every list of new bars
whose timestamps all parse and are whole seconds, merging the same new
bars a second time into the store produced by the first merge yields
the same store: duplicate timestamps collapse to one record and the
keep-last rule makes the repetition a no-op.  (As stated over arbitrary
bars the claim fails: the final whole-second reformatting changes
sub-second timestamps, see the counterexample.) -/
theorem merge_idempotent (E N : List Bar) (h : ∀ b ∈ E ++ N, truncSec b = b) :
    mergeBars (mergeBars E N) N = mergeBars E N := by
  have hS : ∀ b ∈ mergeCore (E ++ N), truncSec b = b := fun b hb => h b (mem_mergeCore hb)
  have hfix : mergeBars E N = mergeCore (E ++ N) := mergeBars_eq_mergeCore h
  have hall : ∀ b ∈ mergeCore (E ++ N) ++ N, truncSec b = b := by
    intro b hb
    rcases List.mem_append.mp hb with hb' | hb'
    · exact hS b hb'
    · exact h b (List.mem_append.mpr (Or.inr hb'))
  rw [hfix, mergeBars_eq_mergeCore hall]
  apply eq_of_filterKey_eq (mergeCore_strict _) (mergeCore_strict _)
  intro k
  rw [filterKey_mergeCore, filterKey_mergeCore, lastKey_append k (mergeCore (E ++ N)) N,
    lastKey_mergeCore]
  cases hN : lastKey k N with
  | some x => rw [lastKey_append k E N, hN]
  | none => rfl

/-- C1 witness: a run of the merge on concrete whole-second bars,
repeated, is a no-op. -/
theorem merge_idempotent_witness :
    mergeBars (mergeBars [⟨some 1000, "a"⟩] [⟨some 2000, "b"⟩]) [⟨some 2000, "b"⟩] =
      mergeBars [⟨some 1000, "a"⟩] [⟨some 2000, "b"⟩] :=
  merge_idempotent [⟨some 1000, "a"⟩] [⟨some 2000, "b"⟩] (by decide)

/-- C1 counterexample: one new bar with a sub-second timestamp
(`00:00:00.500`).  The first merge writes it truncated to `00:00:00`;
merging the same bar again no longer matches the stored timestamp, so
the second run yields a two-row store instead of leaving the store
unchanged. -/
theorem merge_idempotent_counterexample :
    mergeBars (mergeBars [] [⟨some 500, "x"⟩]) [⟨some 500, "x"⟩] ≠
      mergeBars [] [⟨some 500, "x"⟩] := by decide

/-- C2 (amended): for every existing store and every list of new bars
whose timestamps all parse and are whole seconds, the store written by
the merge is strictly ascending by `caldt` with no duplicate
timestamps.  (As stated over arbitrary bars the claim fails: two
distinct sub-second timestamps inside the same second are both kept and
then written as the same whole-second `caldt` value, see the
counterexample.) -/
theorem merge_strictly_ascending (E N : List Bar)
    (h : ∀ b ∈ E ++ N, ∃ t, b.caldt = some t ∧ t % 1000 = 0) :
    (mergeBars E N).Pairwise fun a b =>
      ∃ s t, a.caldt = some s ∧ b.caldt = some t ∧ s < t := by
  have halign : ∀ b ∈ E ++ N, truncSec b = b := by
    intro b hb
    rcases h b hb with ⟨t, hbt, ht⟩
    cases b with
    | mk c d =>
      cases hbt
      simp [truncSec, Nat.div_mul_cancel (Nat.dvd_of_mod_eq_zero ht)]
  rw [mergeBars_eq_mergeCore halign]
  refine (mergeCore_strict (E ++ N)).imp_of_mem ?_
  intro a b ha hb hab
  rcases h a (mem_mergeCore ha) with ⟨s, hs, -⟩
  rcases h b (mem_mergeCore hb) with ⟨t, ht, -⟩
  refine ⟨s, t, hs, ht, ?_⟩
  rcases hab with ⟨hle, hne⟩
  have hle' : caldtLe a.caldt b.caldt = true := hle
  rw [hs, ht] at hle'
  rw [hs, ht] at hne
  simp only [caldtLe, decide_eq_true_eq] at hle'
  have hst : s ≠ t := fun he => hne (by rw [he])
  omega

/-- C2 witness: a concrete merged store is strictly ascending by
`caldt`. -/
theorem merge_strictly_ascending_witness :
    (mergeBars [⟨some 1000, "a"⟩] [⟨some 2000, "b"⟩, ⟨some 1000, "c"⟩]).Pairwise
      fun a b => ∃ s t, a.caldt = some s ∧ b.caldt = some t ∧ s < t :=
  merge_strictly_ascending [⟨some 1000, "a"⟩] [⟨some 2000, "b"⟩, ⟨some 1000, "c"⟩]
    (by decide)

/-- C2 counterexample: two new bars at `00:00:00.200` and `00:00:00.700`
have distinct parsed timestamps, so deduplication keeps both; the final
whole-second formatting then writes both rows with the same `caldt`
value, so the written store has a duplicate timestamp. -/
theorem merge_strictly_ascending_counterexample :
    ¬ ((mergeBars [] [⟨some 200, "a"⟩, ⟨some 700, "b"⟩]).map Bar.caldt).Nodup := by decide

/-- C3 (amended): the merge step writes the combined result directly to
the store path in a single write call; the only operations performed
are a read of the existing store file and that direct write (plus, in
the Databento variant with a missing file, creating the parent
directory).  No temporary location and no rename is involved, so the
write is not an atomic replace and an interruption mid-write is not
protected against. -/
theorem append_to_csv_writes_directly (finalDf : List Bar) (path parentDir : String)
    (store : Option (List Bar)) :
    (∀ op ∈ (append_to_csv finalDf path store).2,
        op = FsOp.readCsv path ∨ op = FsOp.writeCsv path) ∧
    (∀ op ∈ (append_to_csv_databento finalDf path parentDir store).2,
        op = FsOp.readCsv path ∨ op = FsOp.writeCsv path ∨
          op = FsOp.mkdirParents parentDir) := by
  constructor
  · intro op hop
    cases store with
    | some existing =>
      simp only [append_to_csv, List.mem_cons, List.not_mem_nil, or_false] at hop
      tauto
    | none =>
      simp only [append_to_csv, List.mem_cons, List.not_mem_nil, or_false] at hop
      tauto
  · intro op hop
    cases store with
    | some existing =>
      simp only [append_to_csv_databento, List.mem_cons, List.not_mem_nil, or_false] at hop
      tauto
    | none =>
      simp only [append_to_csv_databento, List.mem_cons, List.not_mem_nil, or_false] at hop
      tauto

/-- C3 counterexample: a concrete `append_to_csv` call on an existing
store reads the store file and then writes the combined result directly
back to the same path.  The operation trace contains no write to a
distinct temporary location followed by a move, so the write is not an
atomic replace; an interruption during the direct write can truncate
the store. -/
theorem append_to_csv_not_atomic_counterexample :
    (append_to_csv [⟨some 0, "x"⟩] "AAPL_1m.csv" (some [])).2 =
      [FsOp.readCsv "AAPL_1m.csv", FsOp.writeCsv "AAPL_1m.csv"] ∧
    ¬ isAtomicReplace (append_to_csv [⟨some 0, "x"⟩] "AAPL_1m.csv" (some [])).2
      "AAPL_1m.csv" := by
  refine ⟨rfl, ?_⟩
  rintro ⟨tmp, hne, hw, -, -⟩
  have hmem : FsOp.writeCsv tmp ∈
      [FsOp.readCsv "AAPL_1m.csv", FsOp.writeCsv "AAPL_1m.csv"] := hw
  simp only [List.mem_cons, List.not_mem_nil, or_false] at hmem
  rcases hmem with h | h
  · exact FsOp.noConfusion h
  · exact hne (by injection h)

/-- C4 (amended): for an existing store whose last record's date `D`
parses and is before yesterday, planning returns a range starting at
`D + 1` (Databento: clamped up to the configured minimum start date)
and ending at today, provided that start is not after today; for an
existing empty store it returns a range starting at the configured
default earliest date (Databento: `max(base_start, 2024-01-01)`;
Polygon: 730 days before today) and ending at today.  A store file
that does not exist is skipped with no range in the Databento script
and is never enumerated by the Polygon script. -/
theorem plan_range_correct (path : String) (rows : List CsvRow)
    (today baseStart d : Nat) :
    (get_last_data_date path rows = .ok (some d) → d + 2 ≤ today →
      polygonPlanStep path rows today = .ok (some (d + 1, today))) ∧
    polygonPlanStep path [] today = .ok (some (today - 730, today)) ∧
    (get_last_data_date path rows = .ok (some d) → d + 2 ≤ today →
      max (d + 1) baseStart ≤ today →
      databentoPlanStep path (some rows) baseStart today =
        .ok (some (max (d + 1) baseStart, today))) ∧
    (max baseStart DEFAULT_START_DATE ≤ today →
      databentoPlanStep path (some []) baseStart today =
        .ok (some (max baseStart DEFAULT_START_DATE, today))) := by
  refine ⟨?_, ?_, ?_, ?_⟩
  · intro h hd
    simp only [polygonPlanStep, h]
    rw [if_neg (by omega), if_neg (by omega)]
  · simp only [polygonPlanStep, get_last_data_date, List.getLast?]
    rw [if_neg (Nat.not_lt.mpr (Nat.sub_le today 730))]
  · intro h hd hle
    simp only [databentoPlanStep, h]
    rw [if_neg (by omega), if_neg (Nat.not_lt.mpr hle)]
  · intro hle
    simp only [databentoPlanStep, get_last_data_date, List.getLast?]
    rw [if_neg (Nat.not_lt.mpr hle)]

/-- C4 witness: concrete plans for a store with last day 19800
(2024-03-18) and for empty stores, with today = 19900 and the default
Databento base start. -/
theorem plan_range_correct_witness :
    polygonPlanStep "A_1m.csv" [⟨.valid 19800, .absent⟩] 19900 = .ok (some (19801, 19900)) ∧
    polygonPlanStep "A_1m.csv" [] 19900 = .ok (some (19170, 19900)) ∧
    databentoPlanStep "A_1m.csv" (some [⟨.valid 19800, .absent⟩]) 19723 19900 =
      .ok (some (19801, 19900)) ∧
    databentoPlanStep "A_1m.csv" (some []) 19723 19900 = .ok (some (19723, 19900)) := by
  have h := plan_range_correct "A_1m.csv" [⟨.valid 19800, .absent⟩] 19900 19723 19800
  exact ⟨h.1 rfl (by decide), h.2.1, h.2.2.1 rfl (by decide) (by decide), h.2.2.2 (by decide)⟩

/-- C4 counterexample: in the Databento script a store file that does
not exist yields no fetch range at all (`main` skips the file), not a
range starting at the configured default earliest date as the claim
states. -/
theorem plan_missing_store_counterexample :
    databentoPlanStep "es_1m.csv" none 19723 20000 = .ok none ∧
    databentoPlanStep "es_1m.csv" none 19723 20000 ≠
      .ok (some (DEFAULT_START_DATE, 20000)) := by
  refine ⟨rfl, ?_⟩
  intro h
  rw [show databentoPlanStep "es_1m.csv" none 19723 20000 = .ok none from rfl] at h
  injection h with h
  exact Option.noConfusion h

/-- C5 (confirmed): for every store whose last record's date parses to
`d` with `d ≥ yesterday` (relative to today in the exchange timezone),
both planners return no range, so no fetch is attempted for that
symbol. -/
theorem plan_freshness_skip (path : String) (rows : List CsvRow) (baseStart today d : Nat)
    (h : get_last_data_date path rows = .ok (some d)) (hy : today - 1 ≤ d) :
    polygonPlanStep path rows today = .ok none ∧
    databentoPlanStep path (some rows) baseStart today = .ok none := by
  constructor
  · simp only [polygonPlanStep, h]
    rw [if_pos hy]
  · simp only [databentoPlanStep, h]
    rw [if_pos hy]

/-- C5 witness: a store whose last day is exactly yesterday is
skipped by both planners. -/
theorem plan_freshness_skip_witness :
    polygonPlanStep "B_1m.csv" [⟨.valid 19999, .absent⟩] 20000 = .ok none ∧
    databentoPlanStep "B_1m.csv" (some [⟨.valid 19999, .absent⟩]) 19723 20000 = .ok none :=
  plan_freshness_skip "B_1m.csv" [⟨.valid 19999, .absent⟩] 19723 20000 19999 rfl (by decide)

/-- C8 (amended): when the last record's date of a store cannot be
parsed, `get_last_data_date` raises a `RuntimeError` and the per-file
loop of `main` has no `try/except`, so the error aborts the whole
multi-symbol batch: the remaining symbols are not processed and no
per-symbol outcome list is produced. -/
theorem malformed_store_aborts_batch (path : String) (rows : List CsvRow) (e : String)
    (rest : List (String × List CsvRow)) (today : Nat)
    (h : get_last_data_date path rows = .error e) :
    polygon_main today ((path, rows) :: rest) = .error e := by
  simp only [polygon_main, polygonPlanStep, h]

/-- C8 witness: a batch whose first store has a malformed `day` cell
ends in that error, whatever files follow. -/
theorem malformed_store_aborts_batch_witness :
    polygon_main 20000
        [("ES_1m.csv", [⟨.malformed "13/01/2024", .absent⟩]),
         ("NQ_1m.csv", [⟨.valid 19800, .absent⟩])] =
      .error "Unexpected day format in ES_1m.csv: 13/01/2024" :=
  malformed_store_aborts_batch "ES_1m.csv" [⟨.malformed "13/01/2024", .absent⟩]
    "Unexpected day format in ES_1m.csv: 13/01/2024"
    [("NQ_1m.csv", [⟨.valid 19800, .absent⟩])] 20000 rfl

/-- C8 counterexample: a two-store batch whose first store has an
unparseable `day` value.  The claim says the failure is fatal for that
symbol only and the batch continues with the next symbol, reporting
each outcome independently; instead the whole run ends in the error
and the second store ("GC_1m.csv", perfectly well-formed) is never
planned or reported. -/
theorem malformed_store_aborts_batch_counterexample :
    polygon_main 20000
        [("SPY_1m.csv", [⟨.malformed "2024-13-99", .absent⟩]),
         ("GC_1m.csv", [⟨.valid 19800, .absent⟩])] =
      .error "Unexpected day format in SPY_1m.csv: 2024-13-99" := rfl

/-- C6 (confirmed): when the remote source reports an availability
boundary `b` that lies strictly inside the requested window — at or
after `start_date` but before the initial exclusive end
`(end_date + 1)` midnight UTC — the fetcher narrows its request end to
exactly `b` and retries once: the request trace is the initial end
followed by `b`, so after the boundary is learned no request covers
instants beyond `b`, and the successful request's effective end is `b`.
If the narrowed retry still fails with the same boundary, the fetch
aborts with the error recorded (an empty frame is returned). -/
theorem availability_narrowing (startDate endDate b fuel : Nat)
    (hlo : startDate ≤ b / DAY_MS) (hhi : b < (endDate + 1) * DAY_MS) :
    download_and_process_range_requests
        (fun e => if b < e then .availability b else .success) startDate endDate (fuel + 2) =
      ([(endDate + 1) * DAY_MS, b], .got b) ∧
    download_and_process_range_requests
        (fun _ => .availability b) startDate endDate (fuel + 2) =
      ([(endDate + 1) * DAY_MS, b], .aborted "data_end_after_available_end") := by
  have h2 : ¬ b / DAY_MS < startDate := Nat.not_lt.mpr hlo
  constructor
  · simp [download_and_process_range_requests, get_range_loop, hhi, h2]
  · simp [download_and_process_range_requests, get_range_loop, h2]

/-- C6 witness: a concrete boundary inside the requested window — the
fetcher issues the initial request, narrows to the boundary, and the
retry succeeds at exactly the boundary; against a source that keeps
failing it aborts after the single narrowed retry. -/
theorem availability_narrowing_witness :
    download_and_process_range_requests
        (fun e => if 100000000 < e then .availability 100000000 else .success) 1 19999 2 =
      ([1728000000000, 100000000], .got 100000000) ∧
    download_and_process_range_requests
        (fun _ => .availability 100000000) 1 19999 2 =
      ([1728000000000, 100000000], .aborted "data_end_after_available_end") :=
  availability_narrowing 1 19999 100000000 0 (by decide) (by decide)

/-- One unfolding of the batch loop. -/
theorem collectBatches_step (remote : Nat → PolyResponse) (reqIdx fuel : Nat)
    (acc : List RawBar) :
    collectBatches remote reqIdx (fuel + 1) acc =
      (let step := get_polygon_data remote reqIdx 5
       match step.1 with
       | ([], _) => (acc, step.2)
       | (results, none) => (acc ++ results, step.2)
       | (results, some _) => collectBatches remote step.2 fuel (acc ++ results)) := rfl

/-- C7 (amended): a network-transport failure is not retried — the
attempt loop of `get_polygon_data` returns `([], None)` at once,
consuming exactly one request — and when the failure hits the very
first request of a run no page was retrieved, `download_and_merge_data`
returns before any processing, and the persisted store is untouched
(no file operation happens).  However, pages retrieved before a
mid-pagination transport failure are still normalized and merged (see
the counterexample), so a transport failure does not in general leave
the store unchanged. -/
theorem transport_failure_no_retry (remote : Nat → PolyResponse) :
    (∀ (i n : Nat) (msg : String), remote i = .transportError msg →
      get_polygon_data remote i (n + 1) = (([], none), i + 1)) ∧
    (∀ (startDate today : Nat) (path : String) (store : Option (List Bar)) (msg : String),
      remote 0 = .transportError msg →
      download_and_merge_data remote startDate today path store = .ok (store, [])) := by
  have hget : ∀ (i n : Nat) (msg : String), remote i = .transportError msg →
      get_polygon_data remote i (n + 1) = (([], none), i + 1) := by
    intro i n msg h
    simp [get_polygon_data, h]
  refine ⟨hget, ?_⟩
  intro startDate today path store msg h
  have hcb : collectBatches remote 0 500 [] = ([], 1) := by
    rw [show (500 : Nat) = 499 + 1 from rfl, collectBatches_step,
      show (5 : Nat) = 4 + 1 from rfl, hget 0 4 msg h]
  by_cases hft : startDate < today - 730
  · simp [download_and_merge_data, if_pos hft]
  · simp [download_and_merge_data, if_neg hft, hcb]

/-- C7 witness: a transport failure on the very first request — one
attempt, no retry, run ends with the store unchanged and no store file
operation. -/
theorem transport_failure_no_retry_witness :
    get_polygon_data (fun _ => .transportError "boom") 0 5 = (([], none), 1) ∧
    download_and_merge_data (fun _ => .transportError "boom") 0 2 "AAPL_1m.csv"
        (some [⟨some 0, "e"⟩]) = .ok (some [⟨some 0, "e"⟩], []) :=
  ⟨(transport_failure_no_retry (fun _ => .transportError "boom")).1 0 4 "boom" rfl,
   (transport_failure_no_retry (fun _ => .transportError "boom")).2 0 2 "AAPL_1m.csv"
     (some [⟨some 0, "e"⟩]) "boom" rfl⟩

/-- C7 counterexample: the first request returns one page with a
continuation URL and the second request fails with a transport error.
The failing batch comes back empty, the loop stops — but the page
already retrieved is processed and merged, and the store changes from
`some []` to a one-row store, contradicting the claim that no merge is
performed and the persisted store is left unchanged on a
network-transport failure. -/
theorem transport_failure_still_merges_counterexample :
    download_and_merge_data
        (fun i => if i = 0 then .ok [⟨.val 54000000, "x"⟩] (some "u")
                  else .transportError "boom")
        0 2 "ES_1m.csv" (some []) =
      .ok (some [⟨some 36000000, "x"⟩], [.readCsv "ES_1m.csv", .writeCsv "ES_1m.csv"]) ∧
    (some [(⟨some 36000000, "x"⟩ : Bar)] : Option (List Bar)) ≠ some [] :=
  ⟨rfl, by decide⟩

/-- C9 (amended): the two normalizers disagree.  The Databento
normalizer enforces the claim: a page (with a timestamp column) in
which any record's timestamp coerces to `NaT` fails as a whole with the
schema error and no canonical bars are produced.  The Polygon
normalizer does not: as long as some record carries a `t` field, the
page never fails — unparseable timestamps are coerced to `NaT` and the
affected rows are silently dropped by the session-window filter (see
the counterexample). -/
theorem unparseable_timestamp_policy :
    (∀ rows : List DbRawRow, (∃ r ∈ rows, r.ts = none) →
      process_databento_frame true rows =
        .error "Encountered unparseable timestamps in Databento response") ∧
    (∀ (results : List RawBar) (e : String), (∃ r ∈ results, r.t ≠ .missing) →
      process_data results ≠ .error e) := by
  constructor
  · rintro rows ⟨r, hr, hts⟩
    have hne : rows ≠ [] := by
      rintro rfl
      exact absurd hr (List.not_mem_nil r)
    have hany : rows.any (fun r => r.ts.isNone) = true :=
      List.any_eq_true.mpr ⟨r, hr, by rw [hts]; rfl⟩
    simp [process_databento_frame, hne, hany]
  · rintro results e ⟨r, hr, ht⟩ hc
    have hne : results ≠ [] := by
      rintro rfl
      exact absurd hr (List.not_mem_nil r)
    have hall : ¬ results.all (fun r => match r.t with | .missing => true | _ => false) = true := by
      intro hc'
      have := List.all_eq_true.mp hc' r hr
      cases hmt : r.t with
      | missing => exact ht hmt
      | bad => rw [hmt] at this; exact Bool.noConfusion this
      | val ms => rw [hmt] at this; exact Bool.noConfusion this
    rw [process_data, if_neg hne, if_neg hall] at hc
    exact Except.noConfusion hc

/-- C9 witness: a Databento page with one `NaT` timestamp fails whole;
a Polygon page consisting of one record with an unparseable `t` does
not fail. -/
theorem unparseable_timestamp_policy_witness :
    process_databento_frame true [⟨none, "z"⟩] =
      .error "Encountered unparseable timestamps in Databento response" ∧
    process_data [⟨.bad, "w"⟩] ≠ .error "KeyError: t" :=
  ⟨unparseable_timestamp_policy.1 [⟨none, "z"⟩] ⟨⟨none, "z"⟩, List.mem_cons_self _ _, rfl⟩,
   unparseable_timestamp_policy.2 [⟨.bad, "w"⟩] "KeyError: t"
     ⟨⟨.bad, "w"⟩, List.mem_cons_self _ _, by decide⟩⟩

/-- C9 counterexample: a Polygon page containing a record whose
timestamp fails to parse together with one valid in-session record.
`process_data` raises no `SchemaError`: it returns the canonical bar of
the valid record and silently drops the malformed row, contradicting
the claim that any unparseable timestamp fails the whole page for every
provider. -/
theorem polygon_unparseable_timestamp_counterexample :
    process_data [⟨.bad, "a"⟩, ⟨.val 54000000, "b"⟩] = .ok [⟨some 36000000, "b"⟩] := rfl

/-- C10 (confirmed): whenever the fetch yields zero raw records, or
normalization yields an empty frame, the run returns before the write
step on both provider paths: the store content is unchanged and no file
operation — not even opening the store for writing — is performed.
Polygon: an empty collected batch list, or an empty processed frame,
makes `download_and_merge_data` return `None` before `append_to_csv`.
Databento: a request loop that ends without data (availability boundary
before the start date, or an abort) yields an empty frame, an empty
normalized frame likewise, and `main` skips the `append_to_csv` call on
an empty frame. -/
theorem empty_fetch_leaves_store_unchanged (premote : Nat → PolyResponse)
    (startDate today : Nat) (ppath : String) (pstore : Option (List Bar))
    (dremote : Nat → DbResponse) (rawFrame : Nat → Bool × List DbRawRow)
    (dstart dend fuel : Nat) (dpath parentDir : String) (dstore : Option (List Bar)) :
    ((collectBatches premote 0 500 []).1 = [] ∨
        process_data (collectBatches premote 0 500 []).1 = .ok [] →
      download_and_merge_data premote startDate today ppath pstore = .ok (pstore, [])) ∧
    (∀ b, (download_and_process_range_requests dremote dstart dend fuel).2 =
        .skippedBeforeStart b →
      databento_fetch_and_write dremote rawFrame dstart dend fuel dpath parentDir dstore =
        .ok (dstore, [])) ∧
    (∀ msg, (download_and_process_range_requests dremote dstart dend fuel).2 =
        .aborted msg →
      databento_fetch_and_write dremote rawFrame dstart dend fuel dpath parentDir dstore =
        .ok (dstore, [])) ∧
    (∀ e, (download_and_process_range_requests dremote dstart dend fuel).2 = .got e →
      process_databento_frame (rawFrame e).1 (rawFrame e).2 = .ok [] →
      databento_fetch_and_write dremote rawFrame dstart dend fuel dpath parentDir dstore =
        .ok (dstore, [])) := by
  refine ⟨?_, ?_, ?_, ?_⟩
  · intro h
    by_cases hft : startDate < today - 730
    · simp [download_and_merge_data, if_pos hft]
    · rcases h with h | h
      · simp [download_and_merge_data, if_neg hft, h]
      · by_cases hraw : (collectBatches premote 0 500 []).1 = []
        · simp [download_and_merge_data, if_neg hft, hraw]
        · simp [download_and_merge_data, if_neg hft, hraw, h]
  · intro b h
    simp [databento_fetch_and_write, download_and_process_range, h]
  · intro msg h
    simp [databento_fetch_and_write, download_and_process_range, h]
  · intro e h hp
    simp [databento_fetch_and_write, download_and_process_range, h, hp]

/-- C10 witness: concrete empty-fetch runs on both paths — a Polygon
source whose first response has no results, a Databento boundary before
the start date, a Databento transport-style failure, and a successful
Databento request whose frame normalizes to empty — each leaves the
store exactly as it was with no file operation. -/
theorem empty_fetch_leaves_store_unchanged_witness :
    download_and_merge_data (fun _ => .ok [] none) 0 2 "QQQ_1m.csv"
        (some [⟨some 1000, "e"⟩]) = .ok (some [⟨some 1000, "e"⟩], []) ∧
    databento_fetch_and_write (fun _ => .availability 0) (fun _ => (true, [])) 5 10 1
        "es_1m.csv" "data" (some [⟨some 1000, "e"⟩]) = .ok (some [⟨some 1000, "e"⟩], []) ∧
    databento_fetch_and_write (fun _ => .failure "down") (fun _ => (true, [])) 5 10 1
        "nq_1m.csv" "data" (some [⟨some 2000, "f"⟩]) = .ok (some [⟨some 2000, "f"⟩], []) ∧
    databento_fetch_and_write (fun _ => .success) (fun _ => (true, [])) 5 10 1
        "gc_1m.csv" "data" (some [⟨some 3000, "g"⟩]) = .ok (some [⟨some 3000, "g"⟩], []) := by
  refine ⟨?_, ?_, ?_, ?_⟩
  · exact (empty_fetch_leaves_store_unchanged (fun _ => .ok [] none) 0 2 "QQQ_1m.csv"
      (some [⟨some 1000, "e"⟩]) (fun _ => .success) (fun _ => (true, [])) 5 10 1 "x" "d"
      none).1 (Or.inl rfl)
  · exact (empty_fetch_leaves_store_unchanged (fun _ => .ok [] none) 0 2 "QQQ_1m.csv"
      none (fun _ => .availability 0) (fun _ => (true, [])) 5 10 1 "es_1m.csv" "data"
      (some [⟨some 1000, "e"⟩])).2.1 0 rfl
  · exact (empty_fetch_leaves_store_unchanged (fun _ => .ok [] none) 0 2 "QQQ_1m.csv"
      none (fun _ => .failure "down") (fun _ => (true, [])) 5 10 1 "nq_1m.csv" "data"
      (some [⟨some 2000, "f"⟩])).2.2.1 "down" rfl
  · exact (empty_fetch_leaves_store_unchanged (fun _ => .ok [] none) 0 2 "QQQ_1m.csv"
      none (fun _ => .success) (fun _ => (true, [])) 5 10 1 "gc_1m.csv" "data"
      (some [⟨some 3000, "g"⟩])).2.2.2 (11 * DAY_MS) rfl rfl
